import Mathlib

/-!
Verification of the chronoflow activity-tracking system: a shallow embedding
of its classifier, session state machine, engine validation and storage
analytics, with theorems settling the specification claims.

Conventions of the embedding:
* Python floats are modelled as `ℚ` (the arithmetic in the source is exact
  decimal-coefficient arithmetic on small numbers).
* `datetime` values are modelled as rational seconds since an epoch; calendar
  days are the integer quotient by 86400, hours/minutes are derived fields.
* Python dicts keyed by enums are association lists preserving insertion
  order, matching dict iteration semantics.
* Fallible operations return `Except String`; mutating methods of a Python
  object are state-passing functions returning the new object.
-/

namespace Chronoflow

/-- models/activity.py: `ActivityCategory` enum (closed set). -/
inductive ActivityCategory where
  | work | study | hobby | relax | health | exercise | social | idle | other
deriving DecidableEq, Repr

/-- models/activity.py: `ActivityPattern` enum (short-term behavioral state). -/
inductive ActivityPattern where
  | focused | distracted | multitasking | idle | transitioning
deriving DecidableEq, Repr

/-- The `.value` string of an `ActivityPattern` member. -/
def ActivityPattern.value : ActivityPattern → String
  | .focused => "focused"
  | .distracted => "distracted"
  | .multitasking => "multitasking"
  | .idle => "idle"
  | .transitioning => "transitioning"

/-! ### Python string primitives

`str.lower()`, `str.upper()` and `str.split()` are modelled on the
character list underlying the string (the built-in `String` iterators do
not reduce inside the kernel). -/

/-- Python `str.lower()` (ASCII case mapping, which covers every app/title
pattern in the rule files). -/
def pyLower (s : String) : String := ⟨s.data.map Char.toLower⟩

/-- Python `str.upper()`. -/
def pyUpper (s : String) : String := ⟨s.data.map Char.toUpper⟩

/-- Helper for `pySplit`: accumulate the current word (reversed) while
scanning. -/
def pySplitAux : List Char → List Char → List String
  | [], acc => if acc = [] then [] else [⟨acc.reverse⟩]
  | c :: rest, acc =>
    if c.isWhitespace then
      if acc = [] then pySplitAux rest []
      else ⟨acc.reverse⟩ :: pySplitAux rest []
    else pySplitAux rest (c :: acc)

/-- Python `str.split()` with no argument: split on whitespace runs,
discarding empty words. -/
def pySplit (s : String) : List String := pySplitAux s.data []

/-! ### fnmatch glob matching

Model of `fnmatch.fnmatch(text, pattern)` as used by
`ActivityClassifier._match_pattern`: `*` matches any run of characters and
`?` matches exactly one character.  The classifier's rule files use only
these two metacharacters; bracket character classes are not modelled and are
treated as literal characters. -/

/-- Fuelled worker for `globMatch`; every recursive call strictly decreases
`text.length + pat.length`, so the fuel `globMatch` supplies never runs
out. -/
def globMatchFuel : ℕ → List Char → List Char → Bool
  | 0, _, _ => false
  | _ + 1, [], [] => true
  | fuel + 1, [], '*' :: ps => globMatchFuel fuel [] ps
  | _ + 1, [], _ :: _ => false
  | _ + 1, _ :: _, [] => false
  | fuel + 1, c :: t, '*' :: ps =>
    globMatchFuel fuel (c :: t) ps || globMatchFuel fuel t ('*' :: ps)
  | fuel + 1, _ :: t, '?' :: ps => globMatchFuel fuel t ps
  | fuel + 1, c :: t, pc :: ps => (c = pc : Bool) && globMatchFuel fuel t ps

def globMatch (text pat : List Char) : Bool :=
  globMatchFuel (text.length + pat.length + 1) text pat

/-- classifier.py `_match_pattern`: `fnmatch.fnmatch(text, pattern.lower())`
(on POSIX `normcase` is the identity, so `text` is used as passed; every
caller passes an already lowercased `text`). -/
def matchPattern (text : String) (pat : String) : Bool :=
  globMatch text.toList (pyLower pat).toList

/-! ### difflib.SequenceMatcher ratio

Model of `SequenceMatcher(None, a, b).ratio()` for the short strings this
system compares (below the 200-character autojunk threshold, and with no
junk predicate): the total size of the matching blocks found by the
recursive longest-matching-block decomposition, normalized by the combined
length.  The recursion is expressed with an explicit fuel argument that is
always sufficient (one unit per decomposition level). -/

/-- `dict.get k 0` on an association list from `ℕ` to `ℕ`. -/
def assocGetNat (l : List (ℕ × ℕ)) (k : ℕ) : ℕ :=
  match l.find? (fun p => p.1 == k) with
  | some p => p.2
  | none => 0

/-- One outer-loop iteration (index `i` into `a`) of
`SequenceMatcher.find_longest_match`: threads the `j2len` table and the
current best `(i, j, size)` triple. -/
def flmStep (a b : List Char) (blo bhi : ℕ)
    (st : List (ℕ × ℕ) × (ℕ × ℕ × ℕ)) (i : ℕ) : List (ℕ × ℕ) × (ℕ × ℕ × ℕ) :=
  let j2len := st.1
  let js := ((List.range bhi).drop blo).filter (fun j => b.getD j ' ' == a.getD i ' ')
  js.foldl
    (fun st2 j =>
      let k := (if j = 0 then 0 else assocGetNat j2len (j - 1)) + 1
      let best := st2.2
      let best2 := if best.2.2 < k then (i + 1 - k, j + 1 - k, k) else best
      (st2.1 ++ [(j, k)], best2))
    ([], st.2)

/-- `SequenceMatcher.find_longest_match(alo, ahi, blo, bhi)` (no junk, so the
junk-extension passes are no-ops). -/
def findLongestMatch (a b : List Char) (alo ahi blo bhi : ℕ) : ℕ × ℕ × ℕ :=
  (((List.range ahi).drop alo).foldl (flmStep a b blo bhi) ([], (alo, blo, 0))).2

/-- Total size of the matching blocks of `get_matching_blocks`, restricted to
the ranges `[alo, ahi) × [blo, bhi)`; the first argument is fuel. -/
def matchingBlocksTotal (a b : List Char) : ℕ → ℕ → ℕ → ℕ → ℕ → ℕ
  | 0, _, _, _, _ => 0
  | fuel + 1, alo, ahi, blo, bhi =>
    let r := findLongestMatch a b alo ahi blo bhi
    if r.2.2 = 0 then 0
    else
      r.2.2 + matchingBlocksTotal a b fuel alo r.1 blo r.2.1 +
        matchingBlocksTotal a b fuel (r.1 + r.2.2) ahi (r.2.1 + r.2.2) bhi

/-- `SequenceMatcher(None, s1, s2).ratio()`; `difflib._calculate_ratio`
returns `1.0` when both strings are empty. -/
def sequenceMatcherRatio (s1 s2 : String) : ℚ :=
  let a := s1.toList
  let b := s2.toList
  let length := a.length + b.length
  if length = 0 then 1
  else 2 * (matchingBlocksTotal a b (length + 1) 0 a.length 0 b.length : ℚ) / length

/-! ### Rule model (models/rules.py)

The rules-side `ActivityPattern` (a match pattern, distinct from the
behavioural enum above) lives in the `Rules` namespace.  A time range string
`"HH:MM-HH:MM"` is modelled as its two endpoints in minutes; lexicographic
comparison of zero-padded `"HH:MM"` strings coincides with numeric
comparison of minutes.  Pydantic's optional `time_ranges`/`days` default
`None` and the empty list are both falsy in the source's `if` tests, so both
are modelled as the empty list. -/

namespace Rules

structure ActivityPattern where
  id : String
  apps : List String
  titles : List String
  timeRanges : List (ℕ × ℕ)
  days : List String
deriving DecidableEq, Repr

end Rules

structure CategoryRule where
  priority : ℤ
  patterns : List Rules.ActivityPattern
deriving DecidableEq, Repr

structure DefaultRule where
  category : ActivityCategory
  priority : ℤ
deriving DecidableEq, Repr

structure RulesMetadata where
  version : String
  lastUpdated : ℚ
deriving DecidableEq, Repr

structure PrivacyRule where
  excludedApps : List String
  excludedTitles : List String
deriving DecidableEq, Repr

structure ActivityRules where
  rules : List (ActivityCategory × CategoryRule)
  default : DefaultRule
  metadata : RulesMetadata
  privacy : PrivacyRule
deriving DecidableEq, Repr

/-! ### Classifier (classifier.py) -/

/-- The `%H:%M` / `%A` fields of the timestamp that `classify_activity`
reads: minute of day (`current_time`, compared numerically, see above) and
weekday name (`current_day`). -/
structure ClockTime where
  minuteOfDay : ℕ
  dayName : String
deriving DecidableEq, Repr

/-- classifier.py `_is_time_in_range`: `start <= current_time <= end` on
`"HH:MM"` strings, numerically on minutes. -/
def isTimeInRange (currentTime : ℕ) (timeRange : ℕ × ℕ) : Bool :=
  timeRange.1 ≤ currentTime && currentTime ≤ timeRange.2

/-- classifier.py `_calculate_time_score`. -/
def calculateTimeScore (currentTime : ℕ) (timeRange : ℕ × ℕ) : ℚ :=
  if isTimeInRange currentTime timeRange then 1
  else
    let minDistance : ℤ :=
      min ((currentTime : ℤ) - timeRange.1).natAbs ((currentTime : ℤ) - timeRange.2).natAbs
    max 0 (1 - (minDistance : ℚ) / 180)

/-- classifier.py `_calculate_pattern_score` (both arguments are lowercased
by every caller). -/
def calculatePatternScore (text : String) (pat : String) : ℚ :=
  if pat = text then 1
  else if pat.toList.contains '*' && matchPattern text pat then 0.9
  else sequenceMatcherRatio text pat

/-- classifier.py `_should_exclude_activity`. -/
def shouldExcludeActivity (rules : ActivityRules) (appName windowTitle : String) : Bool :=
  let app := pyLower appName
  let title := pyLower windowTitle
  rules.privacy.excludedApps.any (fun excluded => matchPattern app excluded) ||
    rules.privacy.excludedTitles.any (fun excluded => matchPattern title excluded)

/-- Python's `max()` over a generated sequence of scores (`max()` raises
`ValueError` on an empty sequence; well-formed rule patterns always carry at
least one entry, and the empty case is modelled as 0). -/
def pyMax (l : List ℚ) : ℚ := (l.max?).getD 0

/-- Scoring state of the `classify_activity` loop:
`(best_match, highest_score, highest_priority)`, with `none` standing for
the initial `float('inf')` priority. -/
abbrev ClassifyState := Option ActivityCategory × ℚ × Option ℤ

/-- The body of `classify_activity`'s loop over one category's rule set. -/
def classifyStep (appName windowTitle : String) (ts : ClockTime)
    (st : ClassifyState) (entry : ActivityCategory × CategoryRule) : ClassifyState :=
  let skip := match st.2.2 with
    | none => false
    | some p => entry.2.priority ≥ p
  if skip then st
  else
    entry.2.patterns.foldl
      (fun st2 pat =>
        let appScore := pyMax (pat.apps.map (fun app =>
          calculatePatternScore (pyLower appName) (pyLower app)))
        let titleScore := pyMax (pat.titles.map (fun title =>
          calculatePatternScore (pyLower windowTitle) (pyLower title)))
        let timeScore := if pat.timeRanges ≠ [] then
            pyMax (pat.timeRanges.map (calculateTimeScore ts.minuteOfDay))
          else 1
        let dayScore := if pat.days ≠ [] then
            (if pat.days.contains ts.dayName then 1 else 0.2)
          else 1
        let totalScore := appScore * 0.4 + titleScore * 0.4 + timeScore * 0.1 + dayScore * 0.1
        if totalScore > st2.2.1 then (some entry.1, totalScore, some entry.2.priority)
        else st2)
      st

/-- classifier.py `classify_activity`.  The Python signature takes an
optional timestamp defaulted to `datetime.now()`; the embedding takes the
timestamp fields it reads. -/
def classifyActivity (rules : ActivityRules) (appName windowTitle : String)
    (ts : ClockTime) (idleTime : ℚ) : Option ActivityCategory × ℚ :=
  if idleTime ≥ 300 then (some .idle, 1)
  else if shouldExcludeActivity rules appName windowTitle then (none, 0)
  else
    let final := rules.rules.foldl (classifyStep appName windowTitle ts) (none, 0, none)
    match final with
    | (none, _, _) => (some rules.default.category, 0.3)
    | (some best, highestScore, _) =>
      if highestScore < 0.3 then (some rules.default.category, 0.3)
      else (some best, highestScore)

/-- The spec's `match_score(text, pattern)`: `_calculate_pattern_score`
applied to the lowercased text and pattern, exactly as the classifier calls
it on every app/title pattern. -/
def matchScore (text pat : String) : ℚ :=
  calculatePatternScore (pyLower text) (pyLower pat)

/-! ### Activity data model (models/activity.py)

Timestamps are rational seconds since an epoch. -/

structure ActivityData where
  timestamp : ℚ
  application : String
  windowTitle : String
  idleTime : ℚ
  category : Option ActivityCategory
deriving DecidableEq, Repr

/-- models/activity.py `TimeLog` — a plain pydantic model; it declares no
validator of its own (contrast `DailyHeatmap.validate_hours`). -/
structure TimeLog where
  startTime : ℚ
  endTime : ℚ
  category : ActivityCategory
  description : Option String
  tags : Option (List String)
deriving DecidableEq, Repr

/-- Constructing a `TimeLog` through pydantic validation: the model has no
field validator, so construction always succeeds. -/
def timeLogCreate (startTime endTime : ℚ) (category : ActivityCategory)
    (description : Option String) (tags : Option (List String)) : Except String TimeLog :=
  .ok ⟨startTime, endTime, category, description, tags⟩

structure ActivityTransition where
  fromActivity : ActivityData
  toActivity : ActivityData
  timestamp : ℚ
  duration : ℚ
  pattern : ActivityPattern
deriving DecidableEq, Repr

structure ActivityContext where
  lastActivities : List ActivityData
  categoryDurations : List (ActivityCategory × ℚ)
  activityPatterns : List ActivityPattern
  transitionHistory : List ActivityTransition
  focusScore : ℚ
  productivityScore : ℚ
deriving DecidableEq, Repr

/-- A fresh `ActivityContext()` with all pydantic defaults. -/
def ActivityContext.initial : ActivityContext := ⟨[], [], [], [], 0, 0⟩

/-- `dict.get k d` on an insertion-ordered association list. -/
def dictGetD (l : List (ActivityCategory × ℚ)) (c : ActivityCategory) (d : ℚ) : ℚ :=
  match l.find? (fun p => p.1 == c) with
  | some p => p.2
  | none => d

/-- `dict[k] = v` on an insertion-ordered association list: update in place
if the key exists, else append. -/
def dictSet (l : List (ActivityCategory × ℚ)) (c : ActivityCategory) (v : ℚ) :
    List (ActivityCategory × ℚ) :=
  if l.any (fun p => p.1 == c) then l.map (fun p => if p.1 == c then (c, v) else p)
  else l ++ [(c, v)]

/-- Python's `list(deque)[-n:]` / `list[-n:]` slice: the last `n` elements. -/
def lastN (n : ℕ) (l : List α) : List α := l.drop (l.length - n)

/-- Appending to a `deque(maxlen := m)`: push right, dropping from the left
once the length exceeds `m`. -/
def dequeAppend (maxlen : ℕ) (l : List α) (x : α) : List α :=
  let l2 := l ++ [x]
  if maxlen < l2.length then l2.drop (l2.length - maxlen) else l2

/-! ### Session state machine (tracker/activity_session.py)

`datetime.now()` is passed in explicitly: `update` receives the wall-clock
time `now` of the sample, and the nested `datetime.now()` of
`_update_context_metrics` is identified with it (the source reads the clock
twice within microseconds of each other). -/

structure SessionParams where
  minDuration : ℚ
  mergeThreshold : ℚ
  contextWindow : ℕ
  minFocusDuration : ℚ
  maxContextTransitions : ℕ
deriving DecidableEq, Repr

/-- The `ActivitySession.__init__` defaults. -/
def defaultSessionParams : SessionParams := ⟨30, 300, 5, 900, 20⟩

structure SessionState where
  currentActivity : Option ActivityData
  activityStart : Option ℚ
  context : ActivityContext
  idleStart : Option ℚ
  patternWindow : List ActivityPattern
deriving DecidableEq, Repr

def SessionState.initial : SessionState := ⟨none, none, ActivityContext.initial, none, []⟩

/-- `_get_context_multiplier`: weighted average of the recent patterns'
weights (the table has no `IDLE` entry, so `.get` falls back to 1.0). -/
def contextMultiplierWeight : ActivityPattern → ℚ
  | .focused => 1.5
  | .distracted => 0.7
  | .multitasking => 1
  | .transitioning => 0.8
  | .idle => 1

def getContextMultiplier (st : SessionState) : ℚ :=
  if st.context.lastActivities = [] then 1
  else
    let recentPatterns := lastN 3 st.patternWindow
    if recentPatterns = [] then 1
    else (recentPatterns.map contextMultiplierWeight).sum / recentPatterns.length

/-- `_calculate_transition_rate`.  The source divides by
`total_time / 1e-6`; rational division by zero is 0 in the embedding while
Python would raise, but recorded transitions always have positive
duration. -/
def calculateTransitionRate (st : SessionState) : ℚ :=
  if st.context.transitionHistory.length < 2 then 0
  else
    let transitions := lastN 10 st.context.transitionHistory
    if transitions = [] then 0
    else
      let totalTime := (transitions.map (·.duration)).sum
      (transitions.length : ℚ) / (totalTime / (1 / 1000000))

/-- `_calculate_average_duration`: mean gap between consecutive samples. -/
def calculateAverageDuration (activities : List ActivityData) : ℚ :=
  if activities.length < 2 then 0
  else
    let durations := (activities.zip activities.tail).map
      (fun p => p.2.timestamp - p.1.timestamp)
    durations.sum / durations.length

/-- `_detect_activity_pattern`. -/
def detectActivityPattern (p : SessionParams) (st : SessionState) (a : ActivityData) :
    ActivityPattern :=
  if st.context.lastActivities = [] then .transitioning
  else
    let recentActivities := st.context.lastActivities
    let uniqueApps := (recentActivities.map (·.application)).dedup
    let avgDuration := calculateAverageDuration recentActivities
    let transitionRate := calculateTransitionRate st
    if a.idleTime > 0 then .idle
    else if uniqueApps.length = 1 ∧ avgDuration > p.minFocusDuration then .focused
    else if uniqueApps.length > 3 ∧ transitionRate > 0.5 then .distracted
    else if 1 < uniqueApps.length ∧ uniqueApps.length ≤ 3 ∧ transitionRate > 0.3 then
      .multitasking
    else .transitioning

/-- The words of a lowercased title as a set (`set(title.lower().split())`). -/
def splitWords (s : String) : List String :=
  (pySplit s).dedup

/-- `_get_title_similarity`: 0.7 × sequence ratio + 0.3 × word-set Jaccard. -/
def getTitleSimilarity (title1 title2 : String) : ℚ :=
  let sequenceRatio := sequenceMatcherRatio title1 title2
  let words1 := splitWords (pyLower title1)
  let words2 := splitWords (pyLower title2)
  let wordOverlap : ℚ :=
    if words1 = [] ∨ words2 = [] then 0
    else ((words1.filter (fun w => words2.contains w)).length : ℚ) /
      ((words1 ++ words2).dedup).length
  0.7 * sequenceRatio + 0.3 * wordOverlap

/-- `_get_context_transition_threshold`. -/
def transitionAdjustmentWeight : ActivityPattern → ℚ
  | .focused => 1.2
  | .distracted => 0.8
  | .multitasking => 0.9
  | .transitioning => 1
  | .idle => 1.1

def getContextTransitionThreshold (st : SessionState) : ℚ :=
  if st.patternWindow = [] then 1
  else
    let recentPatterns := lastN 3 st.patternWindow
    if recentPatterns = [] then 1
    else (recentPatterns.map transitionAdjustmentWeight).sum / recentPatterns.length

/-- `_should_transition_activity`. -/
def shouldTransitionActivity (st : SessionState) (newActivity : ActivityData) : Bool :=
  match st.currentActivity with
  | none => true
  | some cur =>
    if newActivity.application ≠ cur.application then true
    else
      let titleSimilarity := getTitleSimilarity newActivity.windowTitle cur.windowTitle
      let baseThreshold : ℚ := 0.7
      let contextAdjustment := getContextTransitionThreshold st
      titleSimilarity < baseThreshold * contextAdjustment

/-- `_handle_idle_state`: returns the updated state (the idle timer is a
side effect of the call) and the boolean result. -/
def handleIdleState (st : SessionState) (a : ActivityData) (now : ℚ) :
    SessionState × Bool :=
  if a.idleTime > 0 then
    match st.idleStart with
    | none => ({ st with idleStart := some now }, false)
    | some t0 =>
      let idleDuration := now - t0
      let idleThreshold : ℚ := 60
      let contextMultiplier := getContextMultiplier st
      let adjustedThreshold := idleThreshold * contextMultiplier
      (st, idleDuration > adjustedThreshold)
  else ({ st with idleStart := none }, false)

/-- `_calculate_focus_score`'s pattern score table. -/
def focusPatternScore : ActivityPattern → ℚ
  | .focused => 1
  | .multitasking => 0.7
  | .transitioning => 0.5
  | .distracted => 0.3
  | .idle => 0

def calculateFocusScore (st : SessionState) : ℚ :=
  if st.patternWindow = [] then 0.5
  else
    let recentPatterns := lastN 5 st.patternWindow
    (recentPatterns.map focusPatternScore).sum / recentPatterns.length

/-- `_get_productivity_score`'s category weight table (`.get` default 0.4 is
unreachable: the table is total). -/
def categoryWeight : ActivityCategory → ℚ
  | .work => 1
  | .study => 1
  | .hobby => 0.6
  | .health => 0.7
  | .exercise => 0.7
  | .social => 0.3
  | .relax => 0.2
  | .idle => 0
  | .other => 0.4

def productivityPatternMultiplier : ActivityPattern → ℚ
  | .focused => 1.2
  | .multitasking => 0.9
  | .distracted => 0.6
  | .transitioning => 0.8
  | .idle => 0.3

/-- The `timestamp.hour` of a rational epoch time. -/
def timeHour (ts : ℚ) : ℤ := ((Int.floor ts) % 86400) / 3600

/-- `_get_productivity_score`. -/
def getProductivityScore (ts : ℚ) (ctx : ActivityContext) : ℚ :=
  match ctx.lastActivities.getLast? with
  | none => 0
  | some currentActivity =>
    let category := currentActivity.category.getD .other
    let baseScore := categoryWeight category * 100
    let focusMultiplier := 0.5 + ctx.focusScore
    let score := baseScore * focusMultiplier
    let hour := timeHour ts
    let score := if (9 ≤ hour ∧ hour ≤ 11) ∨ (14 ≤ hour ∧ hour ≤ 16) then score * 1.2
      else if (0 ≤ hour ∧ hour ≤ 5) ∨ (22 ≤ hour ∧ hour ≤ 23) then score * 0.8
      else score
    let score := match ctx.activityPatterns.getLast? with
      | some pat => score * productivityPatternMultiplier pat
      | none => score
    let score := if currentActivity.idleTime > 0 then
        score * (1 - min (currentActivity.idleTime / 300) 1)
      else score
    max 0 (min 100 score)

/-- `_start_new_activity`.  The category-duration update reads
`timestamp - self.activity_start` immediately after `activity_start` was set
to `timestamp`, so it always adds 0.0 (inserting the key if absent). -/
def startNewActivity (st : SessionState) (a : ActivityData) (timestamp : ℚ) :
    SessionState :=
  let ctx := st.context
  let ctx := { ctx with lastActivities := ctx.lastActivities ++ [a] }
  let ctx := match a.category with
    | some c =>
      let cd := dictSet ctx.categoryDurations c (dictGetD ctx.categoryDurations c 0 + 0)
      { ctx with categoryDurations := cd }
    | none => ctx
  { st with currentActivity := some a, activityStart := some timestamp, context := ctx }

/-- A fixed-point rendering used for the `Focus: %.2f` fragment of the
enhanced description (an abstraction of Python float formatting; no theorem
depends on the rendered text). -/
def formatQ2 (q : ℚ) : String :=
  let cents : ℤ := Int.floor (q * 100)
  toString ((cents : ℚ) / 100)

/-- `_create_enhanced_description`. -/
def createEnhancedDescription (p : SessionParams) (st : SessionState) (focusScore : ℚ) :
    String :=
  match st.currentActivity with
  | none => "Unknown activity"
  | some cur =>
    let baseDesc := "[Auto] " ++ cur.application ++ ": " ++ cur.windowTitle
    let pat := detectActivityPattern p st cur
    baseDesc ++ " | Pattern: " ++ pat.value ++ " | Focus: " ++ formatQ2 focusScore

/-- `_generate_activity_tags`. -/
def generateActivityTags (p : SessionParams) (st : SessionState) (focusScore : ℚ) :
    List String :=
  let tags := ["auto-tracked"]
  let tags := match st.currentActivity with
    | some cur => tags ++ ["pattern:" ++ (detectActivityPattern p st cur).value]
    | none => tags
  if focusScore ≥ 0.8 then tags ++ ["high-focus"]
  else if focusScore ≤ 0.3 then tags ++ ["low-focus"]
  else tags

/-- `_create_time_log`. -/
def createTimeLog (p : SessionParams) (st : SessionState) (endTime : ℚ) :
    Option TimeLog :=
  match st.currentActivity, st.activityStart with
  | some cur, some start =>
    let focusScore := calculateFocusScore st
    let description := createEnhancedDescription p st focusScore
    some ⟨start, endTime, cur.category.getD .other, some description,
      some (generateActivityTags p st focusScore)⟩
  | _, _ => none

/-- `_create_idle_log`. -/
def createIdleLog (st : SessionState) (endTime : ℚ) : SessionState × Option TimeLog :=
  match st.idleStart with
  | none => (st, none)
  | some t0 =>
    let previous := match st.currentActivity with
      | some cur => cur.application
      | none => "None"
    let timeLog : TimeLog := ⟨t0, endTime, .idle,
      some ("[Auto] Idle Period | Previous: " ++ previous),
      some ["auto-tracked", "idle"]⟩
    ({ st with idleStart := none, currentActivity := none, activityStart := none },
      some timeLog)

/-- `_handle_activity_transition`. -/
def handleActivityTransition (p : SessionParams) (st : SessionState)
    (newActivity : ActivityData) (now : ℚ) : SessionState × Option TimeLog :=
  match st.activityStart with
  | none => (startNewActivity st newActivity now, none)
  | some start =>
    let duration := now - start
    if duration ≥ p.minDuration then
      let timeLog := createTimeLog p st now
      let st1 := match st.currentActivity with
        | some cur =>
          let transition : ActivityTransition :=
            ⟨cur, newActivity, now, duration, detectActivityPattern p st newActivity⟩
          { st with context := { st.context with
              transitionHistory := st.context.transitionHistory ++ [transition] } }
        | none => st
      (startNewActivity st1 newActivity now, timeLog)
    else (startNewActivity st newActivity now, none)

/-- `_update_context_metrics` (its internal `datetime.now()` is the step's
`now`). -/
def updateContextMetrics (p : SessionParams) (st : SessionState) (a : ActivityData)
    (now : ℚ) : SessionState :=
  let ctx := st.context
  let ctx := match a.category, st.activityStart with
    | some c, some start =>
      let duration := now - start
      let cd := dictSet ctx.categoryDurations c (dictGetD ctx.categoryDurations c 0 + duration)
      { ctx with categoryDurations := cd }
    | _, _ => ctx
  let la := ctx.lastActivities ++ [a]
  let la := if p.contextWindow < la.length then la.drop 1 else la
  let ctx := { ctx with lastActivities := la }
  let stMid := { st with context := ctx }
  let currentPattern := detectActivityPattern p stMid a
  let ap := ctx.activityPatterns ++ [currentPattern]
  let ap := if p.maxContextTransitions < ap.length then ap.drop 1 else ap
  let ctx := { ctx with activityPatterns := ap }
  let focus := calculateFocusScore stMid
  let ctx := { ctx with focusScore := focus }
  let prod := getProductivityScore now ctx
  let ctx := { ctx with productivityScore := prod }
  { st with context := ctx }

/-- `ActivitySession.update`: one sample step. -/
def update (p : SessionParams) (st : SessionState) (a : ActivityData) (now : ℚ) :
    SessionState × Option TimeLog :=
  let r := handleIdleState st a now
  if r.2 then createIdleLog r.1 now
  else
    let st1 := r.1
    let currentPattern := detectActivityPattern p st1 a
    let st2 := { st1 with
      patternWindow := dequeAppend p.maxContextTransitions st1.patternWindow currentPattern }
    match st2.currentActivity with
    | none => (startNewActivity st2 a now, none)
    | some _ =>
      if shouldTransitionActivity st2 a then handleActivityTransition p st2 a now
      else (updateContextMetrics p st2 a now, none)

/-- Feeding a sequence of `(sample, wall-clock)` pairs through the session
starting from a given state, collecting every emitted `TimeLog` in order. -/
def runSessionFrom (p : SessionParams) (st : SessionState) :
    List (ActivityData × ℚ) → SessionState × List TimeLog
  | [] => (st, [])
  | s :: rest =>
    let r := update p st s.1 s.2
    let next := runSessionFrom p r.1 rest
    (next.1, r.2.toList ++ next.2)

/-- Feeding a sequence of `(sample, wall-clock)` pairs through a fresh
session. -/
def runSession (p : SessionParams) (samples : List (ActivityData × ℚ)) :
    SessionState × List TimeLog :=
  runSessionFrom p SessionState.initial samples

/-! ### Rule mutation operations (classifier.py)

Each mutating method is a state-passing function returning the outcome of
the call (a raised `ValueError` becomes `.error`) together with the final
in-memory `ActivityRules` object.  `_save_rules` rewrites the rule file and
refreshes `metadata.last_updated`; the file write is outside the embedding,
the timestamp refresh is kept (`now` is the wall clock at the call). -/

def catContains (l : List (ActivityCategory × CategoryRule)) (c : ActivityCategory) : Bool :=
  l.any (fun p => p.1 == c)

def catGet (l : List (ActivityCategory × CategoryRule)) (c : ActivityCategory) :
    Option CategoryRule :=
  (l.find? (fun p => p.1 == c)).map (·.2)

def catSet (l : List (ActivityCategory × CategoryRule)) (c : ActivityCategory)
    (v : CategoryRule) : List (ActivityCategory × CategoryRule) :=
  if l.any (fun p => p.1 == c) then l.map (fun p => if p.1 == c then (c, v) else p)
  else l ++ [(c, v)]

/-- classifier.py `_save_rules`. -/
def saveRules (r : ActivityRules) (now : ℚ) : ActivityRules :=
  { r with metadata := { r.metadata with lastUpdated := now } }

/-- classifier.py `remove_pattern`. -/
def removePattern (r : ActivityRules) (category : ActivityCategory) (patternId : String)
    (now : ℚ) : Except String Unit × ActivityRules :=
  match catGet r.rules category with
  | none => (.error "Category not found", r)
  | some rule =>
    match rule.patterns.findIdx? (fun p => p.id == patternId) with
    | some i =>
      let rule2 := { rule with patterns := rule.patterns.eraseIdx i }
      let r2 := { r with rules := catSet r.rules category rule2 }
      (.ok (), saveRules r2 now)
    | none => (.error ("Pattern " ++ patternId ++ " not found"), r)

/-- classifier.py `remove_category`. -/
def removeCategory (r : ActivityRules) (category : ActivityCategory) (now : ℚ) :
    Except String Unit × ActivityRules :=
  if catContains r.rules category then
    let r2 := { r with rules := r.rules.filter (fun p => ¬ p.1 == category) }
    (.ok (), saveRules r2 now)
  else (.error "Category not found", r)

/-- classifier.py `update_category_priority`. -/
def updateCategoryPriority (r : ActivityRules) (category : ActivityCategory)
    (priority : ℤ) (now : ℚ) : Except String Unit × ActivityRules :=
  match catGet r.rules category with
  | none => (.error "Category not found", r)
  | some rule =>
    let r2 := { r with rules := catSet r.rules category { rule with priority := priority } }
    (.ok (), saveRules r2 now)

/-- classifier.py `modify_pattern`: only provided parameters are updated. -/
def modifyPattern (r : ActivityRules) (category : ActivityCategory) (patternId : String)
    (apps : Option (List String)) (titles : Option (List String))
    (timeRanges : Option (List (ℕ × ℕ))) (days : Option (List String)) (now : ℚ) :
    Except String Unit × ActivityRules :=
  match catGet r.rules category with
  | none => (.error "Category not found", r)
  | some rule =>
    match rule.patterns.findIdx? (fun p => p.id == patternId) with
    | some i =>
      match rule.patterns[i]? with
      | none => (.error ("Pattern " ++ patternId ++ " not found"), r)
      | some pat =>
        let pat2 : Rules.ActivityPattern :=
          { pat with
            apps := apps.getD pat.apps
            titles := titles.getD pat.titles
            timeRanges := timeRanges.getD pat.timeRanges
            days := days.getD pat.days }
        let rule2 := { rule with patterns := rule.patterns.set i pat2 }
        let r2 := { r with rules := catSet r.rules category rule2 }
        (.ok (), saveRules r2 now)
    | none => (.error ("Pattern " ++ patternId ++ " not found"), r)

/-- classifier.py `modify_privacy_rule`: the app replacement is applied
before the title lookup runs, so a failing title lookup raises after the
apps list has already been modified. -/
def modifyPrivacyRule (r : ActivityRules) (oldApp newApp oldTitle newTitle : Option String)
    (now : ℚ) : Except String Unit × ActivityRules :=
  let afterApps : Except String ActivityRules :=
    match oldApp, newApp with
    | some oa, some na =>
      match r.privacy.excludedApps.findIdx? (fun s => s == oa) with
      | some idx =>
        .ok { r with privacy := { r.privacy with
          excludedApps := r.privacy.excludedApps.set idx na } }
      | none => .error ("App pattern " ++ oa ++ " not found in privacy rules")
    | _, _ => .ok r
  match afterApps with
  | .error e => (.error e, r)
  | .ok r1 =>
    let afterTitles : Except String ActivityRules :=
      match oldTitle, newTitle with
      | some ot, some nt =>
        match r1.privacy.excludedTitles.findIdx? (fun s => s == ot) with
        | some idx =>
          .ok { r1 with privacy := { r1.privacy with
            excludedTitles := r1.privacy.excludedTitles.set idx nt } }
        | none => .error ("Title pattern " ++ ot ++ " not found in privacy rules")
      | _, _ => .ok r1
    match afterTitles with
    | .error e => (.error e, r1)
    | .ok r2 => (.ok (), saveRules r2 now)

def mutationFailed (r : Except String Unit × ActivityRules) : Bool :=
  match r.1 with
  | .error _ => true
  | .ok _ => false

/-! ### Engine validation (engine/engine.py) -/

/-- engine.py `log_activity`: rejects `end_time <= start_time`, then hands
the pair to storage (`add_activity` appends both records). -/
def logActivity (timeLog : TimeLog) (context : ActivityContext)
    (db : List (TimeLog × ActivityContext)) :
    Except String (List (TimeLog × ActivityContext)) :=
  if timeLog.endTime ≤ timeLog.startTime then
    .error "End time must be after start time"
  else .ok (db ++ [(timeLog, context)])

/-! ### Heatmap (storage/sqlite_storage.py `get_heatmap`)

A stored timestamp is rational seconds; `date()` is the day index
`⌊t / 86400⌋`, `datetime.combine(d, min.time)` is `d * 86400`, and
`.hour`/`.minute` are the integer clock fields. -/

def dateOf (t : ℚ) : ℤ := Int.floor (t / 86400)

def hourOf (t : ℚ) : ℤ := ((Int.floor t) % 86400) / 3600

def minuteOf (t : ℚ) : ℤ := ((Int.floor t) % 3600) / 60

/-- `hourly_durations[i] += v`. -/
def listAdd (l : List ℚ) (i : ℕ) (v : ℚ) : List ℚ := l.set i (l.getD i 0 + v)

/-- Python `range(lo, hi)` over hours, as natural indices. -/
def hourRange (lo hi : ℤ) : List ℕ :=
  (List.range (hi - lo).toNat).map (fun k => (lo + k).toNat)

/-- `get_activities`: rows with `start_time >= start` and `end_time <= end`
(ISO-8601 string comparison is chronological), optionally filtered by
category, in query order. -/
def getActivities (db : List TimeLog) (startDate endDate : ℚ)
    (category : Option ActivityCategory) : List TimeLog :=
  db.filter (fun a => startDate ≤ a.startTime && a.endTime ≤ endDate &&
    (match category with
      | some c => a.category == c
      | none => true))

/-- The inner loop of `get_heatmap`: fold one activity into one day's
24 hour buckets. -/
def heatmapAddActivity (currentDate : ℤ) (hourlyDurations : List ℚ) (activity : TimeLog) :
    List ℚ :=
  if dateOf activity.endTime < currentDate ∨ currentDate < dateOf activity.startTime then
    hourlyDurations
  else
    let dayStart := max activity.startTime ((currentDate : ℚ) * 86400)
    let dayEnd := min activity.endTime (((currentDate : ℚ) + 1) * 86400)
    let startHour := hourOf dayStart
    let startMinute := minuteOf dayStart
    let endHour := hourOf dayEnd
    let endMinute : ℤ := if dateOf dayEnd = currentDate then minuteOf dayEnd else 0
    if startHour = endHour then
      listAdd hourlyDurations startHour.toNat ((dayEnd - dayStart) / 3600)
    else
      let firstHourDuration : ℚ := (60 - (startMinute : ℚ)) / 60
      let hs := if 0 < firstHourDuration then
          listAdd hourlyDurations startHour.toNat firstHourDuration
        else hourlyDurations
      let hs := (hourRange (startHour + 1) endHour).foldl (fun acc h => listAdd acc h 1) hs
      if endHour < 24 then listAdd hs endHour.toNat ((endMinute : ℚ) / 60) else hs

/-- One day's `DailyHeatmap` hour buckets. -/
def dayBuckets (activities : List TimeLog) (currentDate : ℤ) : List ℚ :=
  activities.foldl (heatmapAddActivity currentDate) (List.replicate 24 0)

/-- `get_heatmap`: per-day 24 hour buckets for every calendar day in the
range. -/
def getHeatmap (db : List TimeLog) (startDate endDate : ℚ)
    (category : Option ActivityCategory) : List (ℤ × List ℚ) :=
  let activities := getActivities db startDate endDate category
  let days := (List.range (dateOf endDate - dateOf startDate + 1).toNat).map
    (fun k => dateOf startDate + k)
  days.map (fun d => (d, dayBuckets activities d))

/-- Specification-side quantity for comparison: the duration, in hours, of
the portion of `activity` that overlaps calendar day `d`. -/
def overlapHoursOnDay (activity : TimeLog) (d : ℤ) : ℚ :=
  max 0 ((min activity.endTime (((d : ℚ) + 1) * 86400) -
    max activity.startTime ((d : ℚ) * 86400)) / 3600)

/-! ### Streaks (storage/sqlite_storage.py `get_activity_streaks`)

The `daily_hours` CTE (`GROUP BY date(start_time) HAVING hours >= ?`,
ordered by date) is modelled as the input list of `(date, hours)` rows with
strictly increasing dates.  The Python post-processing groups the rows into
streaks using the `day_diff` window value: the first row has `day_diff`
NULL; `not row['day_diff']` is also true for a (unreachable) zero
difference. -/

def buildStreaksLoop : Option ℤ → List (List (ℤ × ℚ)) → List (ℤ × ℚ) →
    List (ℤ × ℚ) → List (List (ℤ × ℚ))
  | _, streaks, currentStreak, [] =>
    if currentStreak ≠ [] then streaks ++ [currentStreak] else streaks
  | prev, streaks, currentStreak, row :: rest =>
    let dayDiff : Option ℤ := prev.map (fun p => row.1 - p)
    if dayDiff = none ∨ dayDiff = some 0 ∨ dayDiff = some 1 then
      buildStreaksLoop (some row.1) streaks (currentStreak ++ [row]) rest
    else
      let streaks2 := if currentStreak ≠ [] then streaks ++ [currentStreak] else streaks
      buildStreaksLoop (some row.1) streaks2 [row] rest

/-- `get_activity_streaks` applied to the CTE's qualifying daily rows. -/
def getActivityStreaks (rows : List (ℤ × ℚ)) : List (List (ℤ × ℚ)) :=
  buildStreaksLoop none [] [] rows

/-! ### Context queries (storage/sqlite_storage.py `get_activity_contexts`) -/

/-- A joined `activities × activity_context` row as the query reads it. -/
structure ContextRow where
  id : String
  startTime : ℚ
  endTime : ℚ
  category : ActivityCategory
  context : ActivityContext
deriving DecidableEq, Repr

def sqlFirstWord (s : String) : String :=
  (pySplit s).headD ""

def sqlStatementKeywords : List String :=
  ["SELECT", "INSERT", "UPDATE", "DELETE", "CREATE", "DROP", "ALTER", "WITH",
   "PRAGMA", "BEGIN", "COMMIT", "ROLLBACK", "VACUUM", "ATTACH", "DETACH",
   "ANALYZE", "EXPLAIN", "REINDEX", "REPLACE", "SAVEPOINT", "RELEASE"]

/-- `sqlite3` executes a complete statement: a string whose first token is
not a statement keyword raises `OperationalError` (a bare `AND ...` is a
syntax error). -/
def sqliteExecute (stmt : String) : Except String Unit :=
  if sqlStatementKeywords.contains (pyUpper (sqlFirstWord stmt)) then .ok ()
  else .error ("OperationalError: near " ++ sqlFirstWord stmt ++ ": syntax error")

/-- `get_activity_contexts`: the main join query filters by the time range;
when a category is given the source then executes the bare fragment
`" AND category = ?"` as a second standalone statement. -/
def getActivityContexts (db : List ContextRow) (startDate endDate : ℚ)
    (category : Option ActivityCategory) : Except String (List ActivityContext) :=
  let rows := db.filter (fun r => startDate ≤ r.startTime && r.endTime ≤ endDate)
  match category with
  | some _ =>
    match sqliteExecute " AND category = ?" with
    | .error e => .error e
    | .ok _ => .ok (rows.map (·.context))
  | none => .ok (rows.map (·.context))

/-! ## Theorems for the specification claims -/

/-- A minimal rule set used as a concrete instance in witnesses. -/
def sampleRules : ActivityRules := ⟨[], ⟨.other, 100⟩, ⟨"1.0", 0⟩, ⟨[], []⟩⟩

/-- A rule set whose privacy rules exclude apps matching `bank*`. -/
def bankExclusionRules : ActivityRules := ⟨[], ⟨.other, 100⟩, ⟨"1.0", 0⟩, ⟨["bank*"], []⟩⟩

/-- A rule set whose privacy rules hold a single excluded app pattern. -/
def singleAppPrivacyRules : ActivityRules := ⟨[], ⟨.other, 100⟩, ⟨"1.0", 0⟩, ⟨["a"], []⟩⟩

/-- A stored activity running from 10:30 on day 0 to 01:00 on day 1. -/
def crossMidnightLog : TimeLog := ⟨37800, 90000, .work, none, none⟩

/-- Two consecutive idle samples: the idle timer starts at t=0 and expires
by t=100, emitting one idle log. -/
def c2Samples : List (ActivityData × ℚ) :=
  [(⟨0, "app", "t", 1, none⟩, 0), (⟨100, "app", "t", 1, none⟩, 100)]

/-- The idle log the session emits on `c2Samples`. -/
def c2IdleLog : TimeLog :=
  ⟨0, 100, .idle, some "[Auto] Idle Period | Previous: app", some ["auto-tracked", "idle"]⟩

/-- The claim-C7 invariant: the context's productivity score lies in
[0, 100] and its focus score lies in [0, 1]. -/
def scoresClamped (ctx : ActivityContext) : Prop :=
  0 ≤ ctx.productivityScore ∧ ctx.productivityScore ≤ 100 ∧
  0 ≤ ctx.focusScore ∧ ctx.focusScore ≤ 1

/-- Two daily rows are on consecutive calendar days. -/
def succRel (a b : ℤ × ℚ) : Prop := b.1 = a.1 + 1

/-- Maximality between adjacent streaks: the day opening the second streak
does not directly follow the day closing the first. -/
def gapRel (s t : List (ℤ × ℚ)) : Prop :=
  ∀ x ∈ s.getLast?, ∀ y ∈ t.head?, ¬ succRel x y

/-- The spec's streak example: qualifying days d1, d2 consecutive and d4
isolated. -/
def c9Rows : List (ℤ × ℚ) := [(1, 2), (2, 3/2), (4, 3)]

/-- Claim C4: whenever `idle_seconds >= 300`, `classify` returns
`(IDLE, 1.0)` immediately, for every app, title, timestamp and rule set. -/
theorem idle_threshold_classifies_idle (rules : ActivityRules)
    (appName windowTitle : String) (ts : ClockTime) (idleTime : ℚ)
    (h : 300 ≤ idleTime) :
    classifyActivity rules appName windowTitle ts idleTime = (some .idle, 1) := by
  unfold classifyActivity
  rw [if_pos h]

/-- Witness for C4 at a concrete input. -/
theorem idle_threshold_classifies_idle_witness :
    (300 : ℚ) ≤ 300 ∧
      classifyActivity sampleRules "a" "b" ⟨0, "Monday"⟩ 300 = (some .idle, 1) :=
  ⟨by norm_num, idle_threshold_classifies_idle sampleRules "a" "b" ⟨0, "Monday"⟩ 300 (by norm_num)⟩

/-- Counterexample to claim C3 as stated: with `idle_seconds = 300` a
privacy-excluded app is classified `(IDLE, 1.0)`, not `(none, 0.0)` — the
idle check runs before the privacy check. -/
theorem privacy_exclusion_not_absolute_cex :
    shouldExcludeActivity bankExclusionRules "bank.exe" "x" = true ∧
    classifyActivity bankExclusionRules "bank.exe" "x" ⟨600, "Monday"⟩ 300 =
      (some .idle, 1) ∧
    (some ActivityCategory.idle, (1 : ℚ)) ≠ (none, 0) :=
  ⟨by decide, by decide, by decide⟩

/-- Claim C3 (amended): for every input with `idle_seconds` below the idle
threshold, a privacy-excluded app/title yields `(none, 0.0)`. -/
theorem privacy_exclusion_yields_none (rules : ActivityRules)
    (appName windowTitle : String) (ts : ClockTime) (idleTime : ℚ)
    (h1 : idleTime < 300)
    (h2 : shouldExcludeActivity rules appName windowTitle = true) :
    classifyActivity rules appName windowTitle ts idleTime = (none, 0) := by
  unfold classifyActivity
  rw [if_neg (not_le.mpr h1), if_pos h2]

/-- Witness for the amended C3 at a concrete input. -/
theorem privacy_exclusion_yields_none_witness :
    (0 : ℚ) < 300 ∧ shouldExcludeActivity bankExclusionRules "bank.exe" "x" = true ∧
      classifyActivity bankExclusionRules "bank.exe" "x" ⟨600, "Monday"⟩ 0 = (none, 0) :=
  ⟨by norm_num, by decide,
    privacy_exclusion_yields_none bankExclusionRules "bank.exe" "x" ⟨600, "Monday"⟩ 0
      (by norm_num) (by decide)⟩

/-- Counterexample to claim C8 as stated: `"abc"` against the glob pattern
`"a?c"` is a non-exact glob match (fnmatch succeeds, the strings differ),
yet `match_score` returns the edit-similarity ratio 2/3, not 0.9 — the 0.9
branch only fires when the pattern contains `*`. -/
theorem match_score_question_glob_cex :
    matchPattern "abc" "a?c" = true ∧ pyLower "abc" ≠ pyLower "a?c" ∧
      matchScore "abc" "a?c" = 2 / 3 ∧ (2 / 3 : ℚ) ≠ 0.9 := by
  refine ⟨by decide, by decide, ?_, by norm_num⟩
  rw [matchScore, calculatePatternScore, if_neg (by decide), if_neg (by decide),
    sequenceMatcherRatio]
  rw [show ((pyLower "abc").toList.length + (pyLower "a?c").toList.length) = 6 from by decide]
  rw [if_neg (by norm_num)]
  rw [show matchingBlocksTotal (pyLower "abc").toList (pyLower "a?c").toList (6 + 1) 0
      (pyLower "abc").toList.length 0 (pyLower "a?c").toList.length = 2 from by decide]
  norm_num

/-- Claim C8 (amended): `match_score` is 1.0 exactly on case-insensitive
equality; it is 0.9 for a non-exact glob match whose pattern contains `*`;
otherwise (including `?`-only glob patterns) it is the
`SequenceMatcher` edit-similarity ratio of the lowercased strings. -/
theorem match_score_cases (text pat : String) :
    (pyLower text = pyLower pat → matchScore text pat = 1) ∧
    (pyLower text ≠ pyLower pat → (pyLower pat).toList.contains '*' = true →
      matchPattern (pyLower text) (pyLower pat) = true → matchScore text pat = 0.9) ∧
    (pyLower text ≠ pyLower pat →
      ((pyLower pat).toList.contains '*' = false ∨
        matchPattern (pyLower text) (pyLower pat) = false) →
      matchScore text pat = sequenceMatcherRatio (pyLower text) (pyLower pat)) := by
  unfold matchScore calculatePatternScore
  refine ⟨fun h => ?_, fun hne hstar hmatch => ?_, fun hne hcase => ?_⟩
  · rw [if_pos h.symm]
  · rw [if_neg (fun hh => hne hh.symm), if_pos (by rw [hstar, hmatch]; rfl)]
  · have hfalse : ((pyLower pat).toList.contains '*' &&
        matchPattern (pyLower text) (pyLower pat)) = false := by
      rcases hcase with hc | hc
      · rw [hc, Bool.false_and]
      · rw [hc, Bool.and_false]
    rw [if_neg (fun hh => hne hh.symm),
      if_neg (fun hh => Bool.false_ne_true (hfalse ▸ hh))]

/-- Witness for the amended C8: the spec's own example
`match_score("code.exe", "*.exe") = 0.9`. -/
theorem match_score_cases_witness :
    pyLower "code.exe" ≠ pyLower "*.exe" ∧
      (pyLower "*.exe").toList.contains '*' = true ∧
      matchPattern (pyLower "code.exe") (pyLower "*.exe") = true ∧
      matchScore "code.exe" "*.exe" = 0.9 :=
  ⟨by decide, by decide, by decide,
    (match_score_cases "code.exe" "*.exe").2.1 (by decide) (by decide) (by decide)⟩

/-- Counterexample to claim C6 as stated: constructing a `TimeLog` with
`end_time = start_time` succeeds — the pydantic model declares no
validator, so the `end > start` invariant is not enforced at creation. -/
theorem timelog_creation_unvalidated_cex :
    timeLogCreate 5 5 .other none none = .ok ⟨5, 5, .other, none, none⟩ ∧
      ¬ ((5 : ℚ) < 5) :=
  ⟨rfl, by norm_num⟩

/-- Claim C6 (amended): the `end > start` invariant is enforced at log time
only — `log_activity` rejects `end_time <= start_time` and accepts
`end_time > start_time` — while creation always succeeds. -/
theorem timelog_invariant_at_log_time (s e : ℚ) (c : ActivityCategory)
    (d : Option String) (tg : Option (List String)) (ctx : ActivityContext)
    (db : List (TimeLog × ActivityContext)) :
    (∃ log, timeLogCreate s e c d tg = .ok log) ∧
    (e ≤ s →
      logActivity ⟨s, e, c, d, tg⟩ ctx db = .error "End time must be after start time") ∧
    (s < e → logActivity ⟨s, e, c, d, tg⟩ ctx db = .ok (db ++ [(⟨s, e, c, d, tg⟩, ctx)])) := by
  refine ⟨⟨_, rfl⟩, fun h => ?_, fun h => ?_⟩
  · unfold logActivity
    rw [if_pos h]
  · unfold logActivity
    rw [if_neg (not_le.mpr h)]

/-- Witness for the amended C6 at concrete inputs. -/
theorem timelog_invariant_at_log_time_witness :
    (∃ log, timeLogCreate 5 5 .other none none = .ok log) ∧
      (5 : ℚ) ≤ 5 ∧
      logActivity ⟨5, 5, .other, none, none⟩ ActivityContext.initial [] =
        .error "End time must be after start time" :=
  ⟨(timelog_invariant_at_log_time 5 5 .other none none ActivityContext.initial []).1,
    by norm_num,
    (timelog_invariant_at_log_time 5 5 .other none none ActivityContext.initial []).2.1
      (by norm_num)⟩

/-- Counterexample to claim C5 as stated: `modify_privacy_rule` with a valid
app replacement and an unknown title pattern raises, yet leaves the
in-memory rules changed — the app replacement was already applied. -/
theorem modify_privacy_rule_partial_state_cex :
    mutationFailed
        (modifyPrivacyRule singleAppPrivacyRules (some "a") (some "b") (some "t")
          (some "u") 5) = true ∧
      (modifyPrivacyRule singleAppPrivacyRules (some "a") (some "b") (some "t")
          (some "u") 5).2 ≠ singleAppPrivacyRules :=
  ⟨by decide, by decide⟩

/-- Claim C10: `get_activity_contexts` with a non-`None` category always
raises (the category filter is executed as a standalone `" AND ..."`
statement, a SQL syntax error); only `category = None` calls return a
result list. -/
theorem get_activity_contexts_category_raises (db : List ContextRow) (s e : ℚ)
    (c : ActivityCategory) :
    (∃ msg, getActivityContexts db s e (some c) = .error msg) ∧
    (∃ l, getActivityContexts db s e none = .ok l) :=
  ⟨⟨"OperationalError: near AND: syntax error", rfl⟩, ⟨_, rfl⟩⟩

/-- `remove_pattern` raising leaves the rules unchanged. -/
theorem removePattern_failed_unchanged (r : ActivityRules) (cat : ActivityCategory)
    (pid : String) (now : ℚ)
    (h : mutationFailed (removePattern r cat pid now) = true) :
    (removePattern r cat pid now).2 = r := by
  unfold removePattern at h ⊢
  cases hg : catGet r.rules cat with
  | none => simp [hg]
  | some rule =>
    cases hf : rule.patterns.findIdx? (fun p => p.id == pid) with
    | some i => simp [hg, hf, mutationFailed] at h
    | none => simp [hg, hf]

/-- `remove_category` raising leaves the rules unchanged. -/
theorem removeCategory_failed_unchanged (r : ActivityRules) (cat : ActivityCategory)
    (now : ℚ) (h : mutationFailed (removeCategory r cat now) = true) :
    (removeCategory r cat now).2 = r := by
  unfold removeCategory at h ⊢
  cases hg : catContains r.rules cat with
  | true => simp [hg, mutationFailed] at h
  | false => simp [hg]

/-- `update_category_priority` raising leaves the rules unchanged. -/
theorem updateCategoryPriority_failed_unchanged (r : ActivityRules)
    (cat : ActivityCategory) (priority : ℤ) (now : ℚ)
    (h : mutationFailed (updateCategoryPriority r cat priority now) = true) :
    (updateCategoryPriority r cat priority now).2 = r := by
  unfold updateCategoryPriority at h ⊢
  cases hg : catGet r.rules cat with
  | none => simp [hg]
  | some rule => simp [hg, mutationFailed] at h

/-- `modify_pattern` raising leaves the rules unchanged. -/
theorem modifyPattern_failed_unchanged (r : ActivityRules) (cat : ActivityCategory)
    (pid : String) (apps titles : Option (List String))
    (trs : Option (List (ℕ × ℕ))) (days : Option (List String)) (now : ℚ)
    (h : mutationFailed (modifyPattern r cat pid apps titles trs days now) = true) :
    (modifyPattern r cat pid apps titles trs days now).2 = r := by
  unfold modifyPattern at h ⊢
  cases hg : catGet r.rules cat with
  | none => simp [hg]
  | some rule =>
    cases hf : rule.patterns.findIdx? (fun p => p.id == pid) with
    | none => simp [hg, hf]
    | some i =>
      cases hp : rule.patterns[i]? with
      | none => simp [hg, hf, hp]
      | some pat => simp [hg, hf, hp, mutationFailed] at h

/-- `modify_privacy_rule` raising leaves the rules unchanged whenever the
title-replacement pair is not fully given. -/
theorem modifyPrivacyRule_no_title_failed_unchanged (r : ActivityRules)
    (oa na ot nt : Option String) (now : ℚ) (hot : ot = none ∨ nt = none)
    (h : mutationFailed (modifyPrivacyRule r oa na ot nt now) = true) :
    (modifyPrivacyRule r oa na ot nt now).2 = r := by
  unfold modifyPrivacyRule at h ⊢
  match oa, na with
  | some oaStr, some naStr =>
    cases hf : r.privacy.excludedApps.findIdx? (fun s => s == oaStr) with
    | none => simp [hf]
    | some idx =>
      rcases hot with hot | hot <;> subst hot
      · cases nt <;> simp [hf, mutationFailed] at h
      · cases ot <;> simp [hf, mutationFailed] at h
  | some oaStr, none =>
    rcases hot with hot | hot <;> subst hot
    · cases nt <;> simp [mutationFailed] at h
    · cases ot <;> simp [mutationFailed] at h
  | none, na =>
    rcases hot with hot | hot <;> subst hot
    · cases nt <;> simp [mutationFailed] at h
    · cases ot <;> simp [mutationFailed] at h

/-- `modify_privacy_rule` raising leaves the rules unchanged whenever the
app-replacement pair is not fully given: the apps step is skipped, so the
only possible failure is the title lookup, which raises with the rules
untouched. -/
theorem modifyPrivacyRule_no_app_failed_unchanged (r : ActivityRules)
    (oa na ot nt : Option String) (now : ℚ) (hoa : oa = none ∨ na = none)
    (h : mutationFailed (modifyPrivacyRule r oa na ot nt now) = true) :
    (modifyPrivacyRule r oa na ot nt now).2 = r := by
  unfold modifyPrivacyRule at h ⊢
  match oa, na with
  | some oaStr, some naStr =>
    rcases hoa with hoa | hoa <;> simp at hoa
  | some oaStr, none =>
    cases ot with
    | none => simp [mutationFailed] at h
    | some otStr =>
      cases nt with
      | none => simp [mutationFailed] at h
      | some ntStr =>
        cases hf : r.privacy.excludedTitles.findIdx? (fun s => s == otStr) with
        | none => simp [hf]
        | some idx => simp [hf, mutationFailed] at h
  | none, na =>
    cases ot with
    | none => simp [mutationFailed] at h
    | some otStr =>
      cases nt with
      | none => simp [mutationFailed] at h
      | some ntStr =>
        cases hf : r.privacy.excludedTitles.findIdx? (fun s => s == otStr) with
        | none => simp [hf]
        | some idx => simp [hf, mutationFailed] at h

/-- A failing app lookup in `modify_privacy_rule` raises before any state
change. -/
theorem modifyPrivacyRule_app_lookup_failed (r : ActivityRules)
    (oaStr naStr : String) (ot nt : Option String) (now : ℚ)
    (hf : r.privacy.excludedApps.findIdx? (fun s => s == oaStr) = none) :
    modifyPrivacyRule r (some oaStr) (some naStr) ot nt now =
      (.error ("App pattern " ++ oaStr ++ " not found in privacy rules"), r) := by
  unfold modifyPrivacyRule
  simp [hf]

/-- Claim C5 (amended): a lookup-failing mutation leaves the in-memory rule
state unchanged for `remove_pattern`, `remove_category`,
`update_category_priority` and `modify_pattern`, and for
`modify_privacy_rule` whenever at most one replacement pair is fully given
(apps-only, titles-only, or neither) or the app lookup itself fails; when
both an app and a title replacement are requested and the title lookup
fails, the already-applied app replacement remains (the counterexample's
partial state change). -/
theorem rule_mutations_fail_without_state_change (r : ActivityRules)
    (cat : ActivityCategory) (pid : String) (priority : ℤ)
    (apps titles : Option (List String)) (trs : Option (List (ℕ × ℕ)))
    (days : Option (List String)) (oa na ot nt : Option String)
    (oaStr naStr : String) (now : ℚ) :
    (mutationFailed (removePattern r cat pid now) = true →
      (removePattern r cat pid now).2 = r) ∧
    (mutationFailed (removeCategory r cat now) = true →
      (removeCategory r cat now).2 = r) ∧
    (mutationFailed (updateCategoryPriority r cat priority now) = true →
      (updateCategoryPriority r cat priority now).2 = r) ∧
    (mutationFailed (modifyPattern r cat pid apps titles trs days now) = true →
      (modifyPattern r cat pid apps titles trs days now).2 = r) ∧
    (((oa = none ∨ na = none) ∨ (ot = none ∨ nt = none)) →
      mutationFailed (modifyPrivacyRule r oa na ot nt now) = true →
      (modifyPrivacyRule r oa na ot nt now).2 = r) ∧
    (r.privacy.excludedApps.findIdx? (fun s => s == oaStr) = none →
      mutationFailed (modifyPrivacyRule r (some oaStr) (some naStr) ot nt now) = true ∧
      (modifyPrivacyRule r (some oaStr) (some naStr) ot nt now).2 = r) :=
  ⟨removePattern_failed_unchanged r cat pid now,
    removeCategory_failed_unchanged r cat now,
    updateCategoryPriority_failed_unchanged r cat priority now,
    modifyPattern_failed_unchanged r cat pid apps titles trs days now,
    fun hc => hc.elim (modifyPrivacyRule_no_app_failed_unchanged r oa na ot nt now)
      (modifyPrivacyRule_no_title_failed_unchanged r oa na ot nt now),
    fun hf => by rw [modifyPrivacyRule_app_lookup_failed r oaStr naStr ot nt now hf]
                 exact ⟨rfl, rfl⟩⟩

/-- Witness for the amended C5 at concrete inputs: removing a pattern from a
missing category fails and leaves the rules unchanged; a titles-only
`modify_privacy_rule` whose title lookup fails leaves the rules unchanged;
and a failing app lookup in `modify_privacy_rule` fails and leaves the
rules unchanged. -/
theorem rule_mutations_fail_without_state_change_witness :
    mutationFailed (removePattern sampleRules .work "p1" 7) = true ∧
    (removePattern sampleRules .work "p1" 7).2 = sampleRules ∧
    mutationFailed
      (modifyPrivacyRule singleAppPrivacyRules none none (some "t9") (some "u9") 7) = true ∧
    (modifyPrivacyRule singleAppPrivacyRules none none (some "t9") (some "u9") 7).2 =
      singleAppPrivacyRules ∧
    singleAppPrivacyRules.privacy.excludedApps.findIdx? (fun s => s == "zz") = none ∧
    mutationFailed
      (modifyPrivacyRule singleAppPrivacyRules (some "zz") (some "w") none none 7) = true ∧
    (modifyPrivacyRule singleAppPrivacyRules (some "zz") (some "w") none none 7).2 =
      singleAppPrivacyRules :=
  ⟨by decide,
    (rule_mutations_fail_without_state_change sampleRules .work "p1" 0 none none none
      none none none none none "zz" "w" 7).1 (by decide),
    by decide,
    (rule_mutations_fail_without_state_change singleAppPrivacyRules .work "p1" 0 none
      none none none none none (some "t9") (some "u9") "zz" "w" 7).2.2.2.2.1
      (Or.inl (Or.inl rfl)) (by decide),
    by decide,
    ((rule_mutations_fail_without_state_change singleAppPrivacyRules .work "p1" 0 none
      none none none none none none none "zz" "w" 7).2.2.2.2.2 (by decide)).1,
    ((rule_mutations_fail_without_state_change singleAppPrivacyRules .work "p1" 0 none
      none none none none none none none "zz" "w" 7).2.2.2.2.2 (by decide)).2⟩

/-- Claim C1 (evidence of a code bug): for the activity 10:30→01:00 the
heatmap's day-0 buckets sum to 0.5 hours although the activity overlaps
day 0 by 13.5 hours — when an interval runs past midnight, `end_hour` is 0
and the whole-hour loop `range(start_hour+1, end_hour)` is empty, so hours
11:00–24:00 are never bucketed.  (Day 1 is correct: 1 hour.) -/
theorem heatmap_day_sum_mismatch :
    (getHeatmap [crossMidnightLog] 0 93600 none).map (fun p => (p.1, p.2.sum)) =
      [(0, 1/2), (1, 1)] ∧
    overlapHoursOnDay crossMidnightLog 0 = 27/2 ∧
    overlapHoursOnDay crossMidnightLog 1 = 1 ∧
    ((1 : ℚ)/2 ≠ 27/2) := by
  have hb0 : (dayBuckets [crossMidnightLog] 0).sum = 1/2 := by
    norm_num [dayBuckets, heatmapAddActivity, dateOf, hourOf, minuteOf, listAdd, hourRange,
      crossMidnightLog, max_def, min_def, List.getD,
      show ((-11 : ℤ)).toNat = 0 from by decide, show ((10 : ℤ)).toNat = 10 from by decide,
      List.replicate, List.set]
  have hb1 : (dayBuckets [crossMidnightLog] 1).sum = 1 := by
    norm_num [dayBuckets, heatmapAddActivity, dateOf, hourOf, minuteOf, listAdd, hourRange,
      crossMidnightLog, max_def, min_def, List.getD,
      show ((0 : ℤ)).toNat = 0 from by decide, show ((1 : ℤ)).toNat = 1 from by decide,
      List.replicate, List.set]
  have hacts : getActivities [crossMidnightLog] 0 93600 none = [crossMidnightLog] := by
    norm_num [getActivities, crossMidnightLog]
  refine ⟨?_, by norm_num [overlapHoursOnDay, crossMidnightLog, max_def, min_def],
    by norm_num [overlapHoursOnDay, crossMidnightLog, max_def, min_def], by norm_num⟩
  simp only [getHeatmap, hacts]
  norm_num [dateOf, show Int.toNat 2 = 2 from by decide, List.range_succ, hb0, hb1,
    List.flatMap_cons, List.flatMap_nil]

/-! ### Session lemmas: emitted log durations (C2) and score bounds (C7) -/

/-- Sum of mapped values is bounded below and above by `length` times the
pointwise bounds. -/
theorem map_sum_bounds {α : Type} (f : α → ℚ) (lo hi : ℚ)
    (hf : ∀ x, lo ≤ f x ∧ f x ≤ hi) :
    ∀ l : List α, lo * l.length ≤ (l.map f).sum ∧ (l.map f).sum ≤ hi * l.length := by
  intro l
  induction l with
  | nil => simp
  | cons x xs ih =>
    simp only [List.map_cons, List.sum_cons, List.length_cons]
    have hx := hf x
    push_cast
    constructor <;> nlinarith [ih.1, ih.2, hx.1, hx.2]

/-- The average of mapped values over a nonempty list lies between the
pointwise bounds. -/
theorem map_avg_bounds {α : Type} (f : α → ℚ) (lo hi : ℚ) (l : List α)
    (hne : l ≠ []) (hf : ∀ x, lo ≤ f x ∧ f x ≤ hi) :
    lo ≤ (l.map f).sum / l.length ∧ (l.map f).sum / l.length ≤ hi := by
  have hlen : 0 < (l.length : ℚ) := by
    exact_mod_cast List.length_pos.mpr hne
  have hs := map_sum_bounds f lo hi hf l
  constructor
  · rw [le_div_iff₀ hlen]
    exact hs.1
  · rw [div_le_iff₀ hlen]
    exact hs.2

theorem contextMultiplierWeight_bounds (x : ActivityPattern) :
    7/10 ≤ contextMultiplierWeight x ∧ contextMultiplierWeight x ≤ 3/2 := by
  cases x <;> norm_num [contextMultiplierWeight]

/-- The idle-threshold context multiplier is at least 0.7 in every state. -/
theorem getContextMultiplier_ge (st : SessionState) :
    7/10 ≤ getContextMultiplier st := by
  unfold getContextMultiplier
  split
  · norm_num
  · dsimp only
    split
    · norm_num
    · exact (map_avg_bounds contextMultiplierWeight (7/10) (3/2) _ (by assumption)
        contextMultiplierWeight_bounds).1

/-- If `_handle_idle_state` reports an expired idle timer, the state is
untouched and the elapsed idle duration exceeds the adjusted threshold. -/
theorem handleIdleState_true_elim (st : SessionState) (a : ActivityData) (now : ℚ)
    (h : (handleIdleState st a now).2 = true) :
    (handleIdleState st a now).1 = st ∧
    ∃ t0, st.idleStart = some t0 ∧ 60 * getContextMultiplier st < now - t0 := by
  unfold handleIdleState at h ⊢
  by_cases hgt : a.idleTime > 0
  · rw [if_pos hgt] at h ⊢
    cases hstart : st.idleStart with
    | none => rw [hstart] at h; simp at h
    | some t0 =>
      rw [hstart] at h
      dsimp only at h ⊢
      simp only [decide_eq_true_eq] at h
      exact ⟨rfl, t0, rfl, h⟩
  · rw [if_neg hgt] at h
    simp at h

/-- An idle log spans from the recorded idle start to `end_time`. -/
theorem createIdleLog_emitted (st : SessionState) (e : ℚ) (log : TimeLog)
    (h : (createIdleLog st e).2 = some log) :
    ∃ t0, st.idleStart = some t0 ∧ log.startTime = t0 ∧ log.endTime = e := by
  unfold createIdleLog at h
  cases hstart : st.idleStart with
  | none => rw [hstart] at h; simp at h
  | some t0 =>
    rw [hstart] at h
    dsimp only at h
    simp only [Option.some_inj] at h
    exact ⟨t0, rfl, by rw [← h], by rw [← h]⟩

/-- A log emitted by `_handle_activity_transition` lasts at least
`min_duration`. -/
theorem handleActivityTransition_emitted (p : SessionParams) (st : SessionState)
    (a : ActivityData) (now : ℚ) (log : TimeLog)
    (h : (handleActivityTransition p st a now).2 = some log) :
    p.minDuration ≤ log.endTime - log.startTime := by
  unfold handleActivityTransition at h
  cases hstart : st.activityStart with
  | none => rw [hstart] at h; simp at h
  | some start =>
    rw [hstart] at h
    dsimp only at h
    by_cases hd : now - start ≥ p.minDuration
    · rw [if_pos hd] at h
      dsimp only at h
      unfold createTimeLog at h
      cases hcur : st.currentActivity with
      | none => rw [hcur] at h; simp at h
      | some cur =>
        rw [hcur, hstart] at h
        dsimp only at h
        simp only [Option.some_inj] at h
        rw [← h]
        simpa using hd
    · rw [if_neg hd] at h
      simp at h

/-- Any `TimeLog` emitted by a single `update` step lasts at least
`min_duration` provided `min_duration ≤ 42` (the idle path always spans more
than `60 × 0.7 = 42` seconds; the transition path checks `min_duration`
itself). -/
theorem update_emitted_log_duration (p : SessionParams) (hp : p.minDuration ≤ 42)
    (st : SessionState) (a : ActivityData) (now : ℚ) (log : TimeLog)
    (h : (update p st a now).2 = some log) :
    p.minDuration ≤ log.endTime - log.startTime := by
  unfold update at h
  dsimp only at h
  split at h
  · rename_i hidle
    obtain ⟨hfst, t0, hstart, hbound⟩ := handleIdleState_true_elim st a now hidle
    rw [hfst] at h
    obtain ⟨t0', hstart', hs, he⟩ := createIdleLog_emitted st now log h
    rw [hstart] at hstart'
    injection hstart' with ht
    subst ht
    rw [hs, he]
    have hmult := getContextMultiplier_ge st
    nlinarith
  · split at h
    · simp at h
    · split at h
      · exact handleActivityTransition_emitted p _ a now log h
      · simp at h

/-- Claim C2: over every sample sequence, the (default-parameter) session
never returns a `TimeLog` shorter than `min_duration`; stated for any
parameters with `min_duration ≤ 42`, which the 30-second default
satisfies. -/
theorem session_never_emits_short_log (p : SessionParams) (hp : p.minDuration ≤ 42)
    (samples : List (ActivityData × ℚ)) (log : TimeLog)
    (h : log ∈ (runSession p samples).2) :
    p.minDuration ≤ log.endTime - log.startTime := by
  unfold runSession at h
  generalize SessionState.initial = st at h
  induction samples generalizing st with
  | nil => simp [runSessionFrom] at h
  | cons s rest ih =>
    simp only [runSessionFrom, List.mem_append] at h
    rcases h with h | h
    · have : (update p st s.1 s.2).2 = some log := by
        cases hu : (update p st s.1 s.2).2 with
        | none => rw [hu] at h; simp [Option.toList] at h
        | some l =>
          rw [hu] at h
          simp only [Option.toList, List.mem_singleton] at h
          subst h
          rfl
      exact update_emitted_log_duration p hp st s.1 s.2 log this
    · exact ih _ h

/-- Witness for C2: the default-parameter session run on `c2Samples` emits
exactly `c2IdleLog`, whose duration satisfies the bound. -/
theorem session_never_emits_short_log_witness :
    defaultSessionParams.minDuration ≤ 42 ∧
    (runSession defaultSessionParams c2Samples).2 = [c2IdleLog] ∧
    defaultSessionParams.minDuration ≤ c2IdleLog.endTime - c2IdleLog.startTime := by
  have hrun : (runSession defaultSessionParams c2Samples).2 = [c2IdleLog] := by
    norm_num [runSession, runSessionFrom, update, handleIdleState, getContextMultiplier,
      lastN, contextMultiplierWeight, detectActivityPattern, dequeAppend, startNewActivity,
      dictSet, dictGetD, createIdleLog, SessionState.initial, ActivityContext.initial,
      defaultSessionParams, c2Samples, c2IdleLog, Option.toList,
      calculateAverageDuration, calculateTransitionRate,
      show ("[Auto] Idle Period | Previous: " ++ "app" : String) =
        "[Auto] Idle Period | Previous: app" from by decide]
  refine ⟨by norm_num [defaultSessionParams], hrun, ?_⟩
  exact session_never_emits_short_log defaultSessionParams
    (by norm_num [defaultSessionParams]) c2Samples c2IdleLog (by rw [hrun]; exact List.mem_singleton.mpr rfl)

theorem focusPatternScore_bounds (x : ActivityPattern) :
    0 ≤ focusPatternScore x ∧ focusPatternScore x ≤ 1 := by
  cases x <;> norm_num [focusPatternScore]

theorem lastN_ne_nil {α : Type} (n : ℕ) (hn : 0 < n) (l : List α) (hl : l ≠ []) :
    lastN n l ≠ [] := by
  unfold lastN
  rw [Ne, List.drop_eq_nil_iff]
  have : 0 < l.length := List.length_pos.mpr hl
  omega

/-- `_calculate_focus_score` always lands in [0, 1]. -/
theorem calculateFocusScore_bounds (st : SessionState) :
    0 ≤ calculateFocusScore st ∧ calculateFocusScore st ≤ 1 := by
  unfold calculateFocusScore
  split
  · norm_num
  · dsimp only
    exact map_avg_bounds focusPatternScore 0 1 _
      (lastN_ne_nil 5 (by norm_num) _ (by assumption)) focusPatternScore_bounds

/-- `_get_productivity_score` always lands in [0, 100] (final clamp). -/
theorem getProductivityScore_bounds (ts : ℚ) (ctx : ActivityContext) :
    0 ≤ getProductivityScore ts ctx ∧ getProductivityScore ts ctx ≤ 100 := by
  unfold getProductivityScore
  split
  · norm_num
  · exact ⟨le_max_left 0 _, max_le (by norm_num) (min_le_left _ _)⟩

theorem handleIdleState_context (st : SessionState) (a : ActivityData) (now : ℚ) :
    (handleIdleState st a now).1.context = st.context := by
  unfold handleIdleState
  by_cases hgt : a.idleTime > 0
  · rw [if_pos hgt]
    cases st.idleStart <;> rfl
  · rw [if_neg hgt]

theorem createIdleLog_context (st : SessionState) (e : ℚ) :
    (createIdleLog st e).1.context = st.context := by
  unfold createIdleLog
  cases st.idleStart <;> rfl

theorem startNewActivity_scores (st : SessionState) (a : ActivityData) (t : ℚ) :
    (startNewActivity st a t).context.productivityScore = st.context.productivityScore ∧
    (startNewActivity st a t).context.focusScore = st.context.focusScore := by
  unfold startNewActivity
  cases a.category <;> exact ⟨rfl, rfl⟩

theorem handleActivityTransition_scores (p : SessionParams) (st : SessionState)
    (a : ActivityData) (now : ℚ) :
    (handleActivityTransition p st a now).1.context.productivityScore =
      st.context.productivityScore ∧
    (handleActivityTransition p st a now).1.context.focusScore =
      st.context.focusScore := by
  unfold handleActivityTransition
  cases st.activityStart with
  | none => exact startNewActivity_scores st a now
  | some start =>
    dsimp only
    split
    · cases st.currentActivity with
      | none => exact startNewActivity_scores st a now
      | some cur =>
        dsimp only
        constructor
        · rw [(startNewActivity_scores _ a now).1]
        · rw [(startNewActivity_scores _ a now).2]
    · exact startNewActivity_scores st a now

/-- `_update_context_metrics` writes a clamped productivity score and a
[0, 1] focus score. -/
theorem updateContextMetrics_scores (p : SessionParams) (st : SessionState)
    (a : ActivityData) (now : ℚ) :
    scoresClamped (updateContextMetrics p st a now).context := by
  unfold updateContextMetrics scoresClamped
  dsimp only
  exact ⟨(getProductivityScore_bounds _ _).1, (getProductivityScore_bounds _ _).2,
    (calculateFocusScore_bounds _).1, (calculateFocusScore_bounds _).2⟩

/-- One `update` step preserves the score invariant. -/
theorem update_scores_clamped (p : SessionParams) (st : SessionState)
    (a : ActivityData) (now : ℚ) (h : scoresClamped st.context) :
    scoresClamped (update p st a now).1.context := by
  unfold update
  dsimp only
  split
  · rw [createIdleLog_context, handleIdleState_context]
    exact h
  · split
    · unfold scoresClamped
      rw [(startNewActivity_scores _ a now).1, (startNewActivity_scores _ a now).2]
      dsimp only
      rw [handleIdleState_context]
      exact h
    · split
      · unfold scoresClamped
        rw [(handleActivityTransition_scores p _ a now).1,
          (handleActivityTransition_scores p _ a now).2]
        dsimp only
        rw [handleIdleState_context]
        exact h
      · exact updateContextMetrics_scores p _ a now

/-- Claim C7: after every sample sequence (any parameters), the session
context's productivity score lies in [0, 100] and its focus score in
[0, 1]. -/
theorem session_scores_always_clamped (p : SessionParams)
    (samples : List (ActivityData × ℚ)) :
    scoresClamped (runSession p samples).1.context := by
  unfold runSession
  have key : ∀ (l : List (ActivityData × ℚ)) (st : SessionState),
      scoresClamped st.context → scoresClamped (runSessionFrom p st l).1.context := by
    intro l
    induction l with
    | nil => intro st h; simpa [runSessionFrom] using h
    | cons s rest ih =>
      intro st h
      simp only [runSessionFrom]
      exact ih _ (update_scores_clamped p st s.1 s.2 h)
  exact key samples SessionState.initial
    (by norm_num [SessionState.initial, ActivityContext.initial, scoresClamped])

/-- Invariant-carrying specification of the streak-grouping loop. -/
theorem buildStreaksLoop_spec (rows : List (ℤ × ℚ)) :
    ∀ (prev : Option ℤ) (streaks : List (List (ℤ × ℚ))) (cur : List (ℤ × ℚ)),
    List.Chain' (fun a b => a.1 < b.1) rows →
    (∀ d, prev = some d → ∀ y, rows.head? = some y → d < y.1) →
    List.Chain' succRel cur →
    (∀ x, cur.getLast? = some x → prev = some x.1) →
    (cur = [] → prev = none ∧ streaks = []) →
    (∀ s ∈ streaks, s ≠ [] ∧ List.Chain' succRel s) →
    List.Chain' gapRel streaks →
    (∀ s, streaks.getLast? = some s → ∀ x, s.getLast? = some x →
      ∀ y, cur.head? = some y → ¬ succRel x y) →
    (buildStreaksLoop prev streaks cur rows).flatten = streaks.flatten ++ cur ++ rows ∧
    (∀ s ∈ buildStreaksLoop prev streaks cur rows, s ≠ [] ∧ List.Chain' succRel s) ∧
    List.Chain' gapRel (buildStreaksLoop prev streaks cur rows) := by
  induction rows with
  | nil =>
    intro prev streaks cur _ _ hcur hcurlast hcurnil hstreaks hchain hgap
    unfold buildStreaksLoop
    by_cases hc : cur = []
    · rw [if_neg (fun hne => hne hc)]
      subst hc
      exact ⟨by simp, hstreaks, hchain⟩
    · rw [if_pos hc]
      refine ⟨by simp, ?_, ?_⟩
      · intro s hs
        rcases List.mem_append.mp hs with hs | hs
        · exact hstreaks s hs
        · rw [List.mem_singleton] at hs
          subst hs
          exact ⟨hc, hcur⟩
      · refine List.Chain'.append hchain (List.chain'_singleton _) ?_
        intro x hx y hy
        simp only [List.head?_cons, Option.mem_def, Option.some_inj] at hy
        subst hy
        intro a ha b hb
        exact hgap x hx a ha b hb
  | cons row rest ih =>
    intro prev streaks cur hrows hlink hcur hcurlast hcurnil hstreaks hchain hgap
    have hrows' := (List.chain'_cons'.mp hrows).2
    have hhead := (List.chain'_cons'.mp hrows).1
    unfold buildStreaksLoop
    dsimp only
    by_cases hd : prev.map (fun p => row.1 - p) = none ∨
        prev.map (fun p => row.1 - p) = some 0 ∨ prev.map (fun p => row.1 - p) = some 1
    · rw [if_pos hd]
      have hres := ih (some row.1) streaks (cur ++ [row]) hrows'
        (by intro d hd' y hy
            injection hd' with hd''
            subst hd''
            exact hhead y hy)
        (by by_cases hcn : cur = []
            · subst hcn
              simp only [List.nil_append]
              exact List.chain'_singleton row
            · refine List.Chain'.append hcur (List.chain'_singleton _) ?_
              intro x hx y hy
              simp only [List.head?_cons, Option.mem_def, Option.some_inj] at hy
              subst hy
              have hpx := hcurlast x hx
              have hlt : x.1 < row.1 := hlink x.1 hpx row rfl
              unfold succRel
              rcases hd with h0 | h0 | h0
              · rw [hpx] at h0
                simp at h0
              · rw [hpx] at h0
                simp only [Option.map_some', Option.some_inj] at h0
                omega
              · rw [hpx] at h0
                simp only [Option.map_some', Option.some_inj] at h0
                omega)
        (by intro x hx
            rw [List.getLast?_concat] at hx
            injection hx with hx'
            subst hx'
            rfl)
        (by intro hcontra; simp at hcontra)
        hstreaks hchain
        (by intro s hs x hx y hy
            cases hcn : cur with
            | nil =>
              rw [(hcurnil hcn).2] at hs
              simp at hs
            | cons c t =>
              rw [hcn] at hy
              simp only [List.cons_append, List.head?_cons, Option.mem_def,
                Option.some_inj] at hy
              subst hy
              exact hgap s hs x hx c (by rw [hcn]; rfl))
      refine ⟨?_, hres.2.1, hres.2.2⟩
      rw [hres.1]
      simp
    · rw [if_neg hd]
      push_neg at hd
      obtain ⟨hd1, hd2, hd3⟩ := hd
      have hprev : ∃ pv, prev = some pv := by
        cases hp : prev with
        | none => rw [hp] at hd1; simp at hd1
        | some pv => exact ⟨pv, rfl⟩
      obtain ⟨pv, hpv⟩ := hprev
      have hcne : cur ≠ [] := by
        intro hc
        rw [(hcurnil hc).1] at hpv
        cases hpv
      rw [if_pos hcne]
      have hboundary : ∀ x ∈ streaks.getLast?, ∀ y ∈ [cur].head?, gapRel x y := by
        intro x hx y hy
        simp only [List.head?_cons, Option.mem_def, Option.some_inj] at hy
        subst hy
        intro a ha b hb
        exact hgap x hx a ha b hb
      have hres := ih (some row.1) (streaks ++ [cur]) [row] hrows'
        (by intro d hd' y hy
            injection hd' with hd''
            subst hd''
            exact hhead y hy)
        (List.chain'_singleton _)
        (by intro x hx
            simp only [List.getLast?_singleton, Option.some_inj] at hx
            subst hx
            rfl)
        (by intro hcontra; simp at hcontra)
        (by intro s hs
            rcases List.mem_append.mp hs with hs | hs
            · exact hstreaks s hs
            · rw [List.mem_singleton] at hs
              subst hs
              exact ⟨hcne, hcur⟩)
        (List.Chain'.append hchain (List.chain'_singleton _) hboundary)
        (by intro s hs x hx y hy
            rw [List.getLast?_concat] at hs
            injection hs with hs'
            subst hs'
            simp only [List.head?_cons, Option.mem_def, Option.some_inj] at hy
            subst hy
            intro hsucc
            have hx' := hcurlast x hx
            rw [hpv] at hx'
            injection hx' with hx''
            apply hd3
            rw [hpv]
            simp only [Option.map_some']
            rw [Option.some_inj]
            unfold succRel at hsucc
            omega)
      refine ⟨?_, hres.2.1, hres.2.2⟩
      rw [hres.1]
      simp

/-- Claim C9: on the CTE's qualifying daily rows (strictly date-ascending),
`get_activity_streaks` returns exactly the maximal runs of consecutive
calendar days: the streaks concatenate back to the rows, each streak is a
nonempty run of consecutive days, and adjacent streaks are separated by a
non-unit gap. -/
theorem activity_streaks_maximal_runs (rows : List (ℤ × ℚ))
    (hsorted : List.Chain' (fun a b => a.1 < b.1) rows) :
    (getActivityStreaks rows).flatten = rows ∧
    (∀ s ∈ getActivityStreaks rows, s ≠ [] ∧ List.Chain' succRel s) ∧
    List.Chain' gapRel (getActivityStreaks rows) := by
  have h := buildStreaksLoop_spec rows none [] [] hsorted
    (by intro d hd; cases hd)
    List.chain'_nil
    (by intro x hx; cases hx)
    (fun _ => ⟨rfl, rfl⟩)
    (by intro s hs; cases hs)
    List.chain'_nil
    (by intro s hs; cases hs)
  unfold getActivityStreaks
  simpa using h

/-- Witness for C9 at the spec's example: two streaks `[d1, d2]`, `[d4]`. -/
theorem activity_streaks_maximal_runs_witness :
    List.Chain' (fun a b : ℤ × ℚ => a.1 < b.1) c9Rows ∧
    getActivityStreaks c9Rows = [[(1, 2), (2, 3/2)], [(4, 3)]] ∧
    (getActivityStreaks c9Rows).flatten = c9Rows :=
  ⟨by norm_num [c9Rows, List.chain'_cons, List.chain'_singleton], rfl,
    (activity_streaks_maximal_runs c9Rows
      (by norm_num [c9Rows, List.chain'_cons, List.chain'_singleton])).1⟩

end Chronoflow
